import Mathlib

/-!
Verification of the RAG-Blueprint document-ingestion pipeline.

This file gives a shallow embedding of the two pipeline stages of the
repository and proves properties about them:

* `rag_docling_component` (src/data-ingestion/components/rag_docling_component.py):
  resolves a document list from an input path (single file or JSON manifest),
  converts and chunks each document via external collaborators, filters chunks
  to text-bearing content, registers a vector collection, bulk-inserts the
  accumulated chunk records, writes a metrics report and returns the total
  chunk count.
* `s3_document_provider` (src/data-ingestion/components/s3_document_provider.py):
  walks a paginated bucket listing, downloads objects whose key matches an
  extension allow-list up to a maximum count, and writes a manifest.
* the local-files provider variant of `run_local_pipeline`
  (src/data-ingestion/tests/local_pipeline_runner.py).

External collaborators (document converter, chunker, bucket client, vector
database client, filesystem) are modelled as oracle parameters: per-document
conversion outcomes, per-key download outcomes, listing pages, glob results
and registration/insertion outcomes are inputs to the embedded functions.
-/

/-- Parsed JSON values, the result of a successful `json.load`.  An object is
the key-to-value entry list of the resulting Python dict (keys unique). -/
inductive Json : Type where
  | jstr (s : String)
  | jnum (n : Int)
  | jbool (b : Bool)
  | jnull
  | jlist (xs : List Json)
  | jobj (fields : List (String × Json))
deriving Repr

/-- Lookup of a key in a parsed JSON object, as Python dict membership and
indexing behave on the dict produced by `json.load`. -/
def jsonLookup : List (String × Json) → String → Option Json
  | [], _ => none
  | (k, v) :: rest, key => if k = key then some v else jsonLookup rest key

/-- Classification labels of docling document items (`DocItemLabel`).  The
source only distinguishes `TEXT` and `PARAGRAPH` from everything else; a
representative set of the other labels is listed. -/
inductive DocItemLabel : Type where
  | text
  | paragraph
  | title
  | section_header
  | list_item
  | table
  | picture
  | caption
  | code
  | formula
  | footnote
  | page_header
  | page_footer
deriving DecidableEq, Repr

/-- A constituent source item of a chunk (element of `chunk.meta.doc_items`). -/
structure DocItem : Type where
  label : DocItemLabel
deriving DecidableEq, Repr

/-- The metadata of a chunk produced by the external chunker. -/
structure ChunkMeta : Type where
  doc_items : List DocItem
deriving DecidableEq, Repr

/-- A chunk produced by the external chunker: its text plus metadata. -/
structure Chunk : Type where
  text : String
  meta : ChunkMeta
deriving DecidableEq, Repr

/-- A `LlamaStackDocument` chunk record as built by the component.  The
`source` metadata holds the originating element of the resolved document
list. -/
structure LSDocument : Type where
  document_id : String
  content : String
  mime_type : String
  source : Json
deriving Repr

/-- Outcome of converting and chunking one document, as observed by the
component.  The chunker is lazy, so an exception can also be raised after
some chunks were already yielded: `err chunks msg` records the prefix of
chunks yielded before the exception.  A failure of `converter.convert`
itself is `err [] msg`. -/
inductive DocOutcome : Type where
  | ok (chunks : List Chunk)
  | err (chunks : List Chunk) (msg : String)

/-- Status recorded in the metrics for the registration and insertion calls:
the string "success" or the status-plus-error object. -/
inductive CallStatus : Type where
  | success
  | failed (error : String)
deriving DecidableEq, Repr

/-- Entry of `processing_metrics["processed_documents"]`. -/
structure ProcessedEntry : Type where
  file : Json
  chunks : Nat
deriving Repr

/-- Entry of `processing_metrics["failed_documents"]`. -/
structure FailedEntry : Type where
  file : Json
  error : String
deriving Repr

/-- The final value of `processing_metrics` written to the metrics path. -/
structure Metrics : Type where
  document_count : Nat
  processed_documents : List ProcessedEntry
  failed_documents : List FailedEntry
  total_chunks : Nat
  vector_db_registration : CallStatus
  vector_db_insertion : CallStatus
deriving Repr

/-- Externally visible effects of one component run. -/
inductive Event : Type where
  | registerCall
  | insertCall (documents : List LSDocument)
  | writeMetrics (m : Metrics)

/-- Model of the Python str.endswith test.  The core String.endsWith is
defined by well-founded recursion and does not evaluate inside the kernel,
so the equivalent suffix test on the character lists is used. -/
def strEndsWith (s suffix : String) : Bool :=
  suffix.data.isSuffixOf s.data

/-- Model of the Python str.lower call, as the character-wise lowering of
the string. -/
def strToLower (s : String) : String :=
  ⟨s.data.map Char.toLower⟩

/-- Recognizer for the metrics-write event. -/
def isWriteEvent : Event → Bool
  | .writeMetrics _ => true
  | _ => false

/-- Filter of the inner chunk loop: the condition
`any(c.label in [DocItemLabel.TEXT, DocItemLabel.PARAGRAPH] for c in
chunk.meta.doc_items)`. -/
def chunkRetained (chunk : Chunk) : Bool :=
  chunk.meta.doc_items.any fun c =>
    [DocItemLabel.text, DocItemLabel.paragraph].contains c.label

/-- Chunk record id string `f"doc-{i}"`. -/
def mkDocId (i : Nat) : String :=
  "doc-" ++ Nat.repr i

/-- The `LlamaStackDocument` appended for a retained chunk. -/
def mkRecord (i : Nat) (chunk : Chunk) (file : Json) : LSDocument :=
  { document_id := mkDocId i
    content := chunk.text
    mime_type := "text/plain"
    source := file }

/-- Mutable state threaded through the per-document loop: the chunk counter
`i`, the accumulated `llama_documents`, and the two metrics lists. -/
structure LoopState : Type where
  i : Nat
  llama_documents : List LSDocument
  processed : List ProcessedEntry
  failed : List FailedEntry

/-- The inner `for chunk in chunks` loop of one document: retained chunks
bump the shared counter, append a record, and bump the per-document
`chunk_count`.  Returns the new counter, the new record list and the new
`chunk_count`. -/
def processChunks (file : Json) : List Chunk → Nat → List LSDocument → Nat →
    Nat × List LSDocument × Nat
  | [], i, acc, cc => (i, acc, cc)
  | ch :: rest, i, acc, cc =>
    if chunkRetained ch then
      processChunks file rest (i + 1) (acc ++ [mkRecord (i + 1) ch file]) (cc + 1)
    else
      processChunks file rest i acc cc

/-- One iteration of the `for file_path in documents` loop.  On success the
document gets a `processed_documents` entry with its chunk count; on an
exception the chunks yielded before the exception keep their records (the
outer `llama_documents` list is not rolled back) and the document gets a
`failed_documents` entry. -/
def processDocument (file : Json) (outcome : DocOutcome) (st : LoopState) :
    LoopState :=
  match outcome with
  | .ok chunks =>
    let r := processChunks file chunks st.i st.llama_documents 0
    { i := r.1
      llama_documents := r.2.1
      processed := st.processed ++ [{ file := file, chunks := r.2.2 }]
      failed := st.failed }
  | .err chunks msg =>
    let r := processChunks file chunks st.i st.llama_documents 0
    { i := r.1
      llama_documents := r.2.1
      processed := st.processed
      failed := st.failed ++ [{ file := file, error := msg }] }

/-- The whole per-document loop.  The oracle gives the conversion outcome of
the k-th converter invocation of the run. -/
def processLoop (oracle : Nat → DocOutcome) :
    List Json → Nat → LoopState → LoopState
  | [], _, st => st
  | f :: rest, k, st =>
    processLoop oracle rest (k + 1) (processDocument f (oracle k) st)

/-- Result of one component run: the final metrics, the argument of the
insertion call, the effect trace, and the returned value. -/
structure RunOut : Type where
  metrics : Metrics
  insertArg : List LSDocument
  trace : List Event
  ret : Nat

/-- Status value recorded in the metrics for a service call with the given
outcome. -/
def statusOf : Except String Unit → CallStatus
  | .ok _ => CallStatus.success
  | .error e => CallStatus.failed e

/-- Steps 3 to 5 of `rag_docling_component`, starting from the resolved
document list: the per-document loop, the registration attempt, the
insertion attempt, the metrics write and the return value.  Both service
calls are wrapped in try/except, so their outcomes only determine the
recorded statuses. -/
def rag_docling_run (documents : List Json) (oracle : Nat → DocOutcome)
    (regResult insResult : Except String Unit) : RunOut :=
  let st := processLoop oracle documents 0
    { i := 0, llama_documents := [], processed := [], failed := [] }
  let total_chunks := st.llama_documents.length
  let m : Metrics :=
    { document_count := documents.length
      processed_documents := st.processed
      failed_documents := st.failed
      total_chunks := total_chunks
      vector_db_registration := statusOf regResult
      vector_db_insertion := statusOf insResult }
  { metrics := m
    insertArg := st.llama_documents
    trace := [Event.registerCall, Event.insertCall st.llama_documents,
              Event.writeMetrics m]
    ret := total_chunks }

/-- Step 2 of `rag_docling_component`: resolve the document list from the
input path.  `isFile` is the value of `os.path.isfile(document_path)`;
`parsed` is the result of `json.load` (`none` for a `JSONDecodeError`),
consulted only when the path names an existing `.json` file. -/
def resolveDocuments (document_path : String) (isFile : Bool)
    (parsed : Option Json) : Json :=
  if isFile then
    if strEndsWith document_path ".json" then
      match parsed with
      | some (Json.jlist xs) => Json.jlist xs
      | some (Json.jobj fields) =>
        match jsonLookup fields "document_paths" with
        | some v => v
        | none =>
          match jsonLookup fields "documents" with
          | some v => v
          | none => Json.jlist [Json.jstr document_path]
      | some _ => Json.jlist [Json.jstr document_path]
      | none => Json.jlist [Json.jstr document_path]
    else
      Json.jlist [Json.jstr document_path]
  else
    Json.jlist []

/-- View of the resolved `documents` value as the list the for-loop iterates
over.  The loop is only modelled when the value is a JSON array; a
non-array value (possible when a manifest key holds a non-list) would be
iterated by Python with type-dependent behaviour and is outside the
model. -/
def pyIterList : Json → Option (List Json)
  | Json.jlist xs => some xs
  | _ => none

/-- Environment of one full component invocation: the filesystem and parse
oracles for input resolution plus the oracles of `rag_docling_run`. -/
structure Env : Type where
  isFile : Bool
  parsed : Option Json
  oracle : Nat → DocOutcome
  regResult : Except String Unit
  insResult : Except String Unit

/-- The full component `rag_docling_component`: input resolution followed by
the run.  Returns `none` only when the resolved documents value is not a
JSON array (unmodelled Python iteration). -/
def rag_docling_component (document_path : String) (env : Env) :
    Option RunOut :=
  match pyIterList (resolveDocuments document_path env.isFile env.parsed) with
  | some documents =>
    some (rag_docling_run documents env.oracle env.regResult env.insResult)
  | none => none

/-- An object of a bucket listing page, with the fields the provider reads. -/
structure S3Object : Type where
  key : String
  size : Nat
  last_modified : String
deriving DecidableEq, Repr

/-- A `downloaded_files` entry of `s3_document_provider`. -/
structure DFile : Type where
  file_path : String
  key : String
  size : Nat
  last_modified : String
deriving DecidableEq, Repr

/-- Model of `os.path.basename`: the part of the key after the last slash,
computed on the character list. -/
def basename (key : String) : String :=
  ⟨key.data.foldl (fun acc c => if c = '/' then [] else acc ++ [c]) []⟩

/-- The local target path `os.path.join(download_dir, os.path.basename(key))`
for a slash-free directory argument. -/
def localPath (download_dir key : String) : String :=
  download_dir ++ "/" ++ basename key

/-- Extension filter of the provider:
`any(key.lower().endswith(ext.lower()) for ext in file_extensions)`. -/
def matchesExt (file_extensions : List String) (key : String) : Bool :=
  file_extensions.any fun ext => strEndsWith (strToLower key) (strToLower ext)

/-- The `downloaded_files` entry recorded for a successfully downloaded
object. -/
def mkDFile (download_dir : String) (obj : S3Object) : DFile :=
  { file_path := localPath download_dir obj.key
    key := obj.key
    size := obj.size
    last_modified := obj.last_modified }

/-- State of the provider loops: the keys whose inner loop body was reached
(in order), the `downloaded_files` list, and `file_count`.  `visited`
tracks enumeration so that early termination is observable. -/
structure ProvState : Type where
  visited : List String
  downloaded : List DFile
  file_count : Nat
deriving Repr

/-- The inner `for obj in page["Contents"]` loop.  Keys that fail the
extension filter are skipped; a failed download is logged and skipped; a
successful download bumps `file_count`, and once it reaches `max_files`
the loop breaks (second component `true`), leaving the rest of the page
unvisited.  `max_files` is an `Int` since the Python parameter is an
arbitrary int.  `dl` gives the outcome of a download attempt per key. -/
def procObjs (file_extensions : List String) (dl : String → Bool)
    (max_files : Int) (download_dir : String) :
    List S3Object → ProvState → ProvState × Bool
  | [], st => (st, false)
  | obj :: rest, st =>
    let st1 : ProvState := { st with visited := st.visited ++ [obj.key] }
    if matchesExt file_extensions obj.key then
      if dl obj.key then
        let st2 : ProvState :=
          { st1 with
            downloaded := st1.downloaded ++ [mkDFile download_dir obj]
            file_count := st1.file_count + 1 }
        if (st2.file_count : Int) ≥ max_files then (st2, true)
        else procObjs file_extensions dl max_files download_dir rest st2
      else procObjs file_extensions dl max_files download_dir rest st1
    else procObjs file_extensions dl max_files download_dir rest st1

/-- The outer `for page in pages` loop.  A page without a Contents key
(`none`) is skipped before the cap check; after each processed page the
loop breaks when `file_count` has reached `max_files` (which subsumes the
break of the inner loop). -/
def procPages (file_extensions : List String) (dl : String → Bool)
    (max_files : Int) (download_dir : String) :
    List (Option (List S3Object)) → ProvState → ProvState
  | [], st => st
  | none :: rest, st =>
    procPages file_extensions dl max_files download_dir rest st
  | some objs :: rest, st =>
    let st1 := (procObjs file_extensions dl max_files download_dir objs st).1
    if (st1.file_count : Int) ≥ max_files then st1
    else procPages file_extensions dl max_files download_dir rest st1

/-- JSON rendering of a `downloaded_files` entry in the manifest. -/
def dfileJson (d : DFile) : Json :=
  Json.jobj [("file_path", Json.jstr d.file_path), ("key", Json.jstr d.key),
    ("size", Json.jnum (d.size : Int)),
    ("last_modified", Json.jstr d.last_modified)]

/-- The manifest dict written by `s3_document_provider` (its `result`
value). -/
def s3Manifest (bucket_name minio_endpoint : String)
    (downloaded : List DFile) : Json :=
  Json.jobj
    [("document_paths", Json.jlist (downloaded.map fun d => Json.jstr d.file_path)),
     ("metadata", Json.jobj
       [("bucket", Json.jstr bucket_name),
        ("endpoint", Json.jstr minio_endpoint),
        ("file_count", Json.jnum (downloaded.length : Int)),
        ("details", Json.jlist (downloaded.map dfileJson))])]

/-- The bucket provider `s3_document_provider`: enumerate the listing pages,
download matching objects up to the cap, and build the manifest. -/
def s3_document_provider (bucket_name minio_endpoint : String)
    (file_extensions : List String) (max_files : Int) (download_dir : String)
    (pages : List (Option (List S3Object))) (dl : String → Bool) :
    ProvState × Json :=
  let st := procPages file_extensions dl max_files download_dir pages
    { visited := [], downloaded := [], file_count := 0 }
  (st, s3Manifest bucket_name minio_endpoint st.downloaded)

/-- The file list gathered by the local-files branch of
`run_local_pipeline`: for each requested extension, the glob results of
the given directory, concatenated in extension order.  `glob` is the
filesystem oracle mapping an extension to the matching paths. -/
def localFilesList (file_extensions : List String)
    (glob : String → List String) : List String :=
  file_extensions.foldl (fun acc ext => acc ++ glob ext) []

/-- The manifest dict written by the local-files branch of
`run_local_pipeline` (its `result` value). -/
def localFilesManifest (local_files_dir : String)
    (file_extensions : List String) (glob : String → List String) : Json :=
  let document_paths := localFilesList file_extensions glob
  Json.jobj
    [("document_paths", Json.jlist (document_paths.map Json.jstr)),
     ("metadata", Json.jobj
       [("source", Json.jstr "local_files"),
        ("file_count", Json.jnum (document_paths.length : Int)),
        ("directory", Json.jstr local_files_dir)])]

/-- Fields of a JSON object value, empty for non-objects. -/
def objFields : Json → List (String × Json)
  | Json.jobj fields => fields
  | _ => []

/-- Lookup of a key inside the metadata object of a manifest. -/
def metaLookup (manifest : Json) (key : String) : Option Json :=
  match jsonLookup (objFields manifest) "metadata" with
  | some m => jsonLookup (objFields m) key
  | none => none

/-- Numeric value of a decimal digit character. -/
def digitVal (c : Char) : Nat := c.toNat - 48

/-- Decimal read-back of a digit list, most significant first. -/
def digitsVal (l : List Char) : Nat :=
  l.foldl (fun a c => 10 * a + digitVal c) 0

/-- The id strings `doc-(i+1), doc-(i+2), ...` for `c` consecutive counter
values starting above `i`. -/
def idRange (i : Nat) : Nat → List String
  | 0 => []
  | c + 1 => mkDocId (i + 1) :: idRange (i + 1) c

/-! Specification-level descriptions of the per-document loop, used to state
and prove the claims.  They are recursive restatements of what the loop
accumulates, proved equal to the loop below. -/

/-- Chunks yielded by the chunker for an outcome (the full list on success,
the prefix yielded before the exception on failure). -/
def outcomeChunks : DocOutcome → List Chunk
  | .ok chunks => chunks
  | .err chunks _ => chunks

/-- Number of retained chunks of a chunk list. -/
def countRetained : List Chunk → Nat
  | [] => 0
  | ch :: rest => (if chunkRetained ch then 1 else 0) + countRetained rest

/-- Records created for the retained chunks of one document when the counter
starts at `i`. -/
def retainedRecords (file : Json) : Nat → List Chunk → List LSDocument
  | _, [] => []
  | i, ch :: rest =>
    if chunkRetained ch then
      mkRecord (i + 1) ch file :: retainedRecords file (i + 1) rest
    else
      retainedRecords file i rest

/-- Total number of retained chunks across the documents from converter call
index `k` on. -/
def totalRetained (oracle : Nat → DocOutcome) : List Json → Nat → Nat
  | [], _ => 0
  | _ :: rest, k =>
    countRetained (outcomeChunks (oracle k)) + totalRetained oracle rest (k + 1)

/-- Records accumulated across the documents, starting at converter call
index `k` and counter value `i`. -/
def runRecords (oracle : Nat → DocOutcome) : List Json → Nat → Nat → List LSDocument
  | [], _, _ => []
  | f :: rest, k, i =>
    retainedRecords f i (outcomeChunks (oracle k)) ++
      runRecords oracle rest (k + 1) (i + countRetained (outcomeChunks (oracle k)))

/-- Expected `processed_documents` entries from call index `k` on: one entry
per successful document, holding its retained-chunk count. -/
def processedSpec (oracle : Nat → DocOutcome) : List Json → Nat → List ProcessedEntry
  | [], _ => []
  | f :: rest, k =>
    match oracle k with
    | .ok chunks =>
      { file := f, chunks := countRetained chunks } :: processedSpec oracle rest (k + 1)
    | .err _ _ => processedSpec oracle rest (k + 1)

/-- Expected `failed_documents` entries from call index `k` on: one entry per
failing document, holding the exception message. -/
def failedSpec (oracle : Nat → DocOutcome) : List Json → Nat → List FailedEntry
  | [], _ => []
  | f :: rest, k =>
    match oracle k with
    | .ok _ => failedSpec oracle rest (k + 1)
    | .err _ msg => { file := f, error := msg } :: failedSpec oracle rest (k + 1)

/-! Injectivity of the decimal id strings.  `Nat.repr` is shown injective by
reading the emitted digits back as a number. -/

/-- Texts of the retained chunks of the run, document by document, from call
index `k` on. -/
def runTexts (oracle : Nat → DocOutcome) : List Json → Nat → List String
  | [], _ => []
  | _ :: rest, k =>
    ((outcomeChunks (oracle k)).filter chunkRetained).map Chunk.text ++
      runTexts oracle rest (k + 1)

theorem digitVal_digitChar (m : Nat) (h : m < 10) :
    digitVal (Nat.digitChar m) = m := by
  interval_cases m <;> rfl

theorem toDigitsCore_val (f : Nat) :
    ∀ (n : Nat) (ds : List Char), n < 10 ^ f →
      (Nat.toDigitsCore 10 f n ds).foldl (fun a c => 10 * a + digitVal c) 0 =
        ds.foldl (fun a c => 10 * a + digitVal c) n := by
  induction f with
  | zero =>
    intro n ds h
    have hn : n = 0 := by simpa using h
    subst hn
    simp [Nat.toDigitsCore]
  | succ f ih =>
    intro n ds h
    simp only [Nat.toDigitsCore]
    by_cases h0 : n / 10 = 0
    · have hn : n < 10 := (Nat.div_eq_zero_iff (by norm_num)).1 h0
      simp [h0, List.foldl, digitVal_digitChar (n % 10) (Nat.mod_lt n (by norm_num)),
        Nat.mod_eq_of_lt hn, digitVal_digitChar n hn]
    · have hdiv : n / 10 < 10 ^ f := by
        rw [Nat.div_lt_iff_lt_mul (by norm_num)]
        calc n < 10 ^ (f + 1) := h
          _ = 10 ^ f * 10 := pow_succ 10 f
      simp only [h0, if_false]
      rw [ih (n / 10) (Nat.digitChar (n % 10) :: ds) hdiv]
      simp [List.foldl, digitVal_digitChar (n % 10) (Nat.mod_lt n (by norm_num)),
        Nat.div_add_mod n 10]

theorem digitsVal_toDigits (n : Nat) : digitsVal (Nat.toDigits 10 n) = n := by
  have h10 : n < 10 ^ (n + 1) := by
    calc n < 2 ^ n := Nat.lt_two_pow n
      _ ≤ 10 ^ n := Nat.pow_le_pow_left (by norm_num) n
      _ ≤ 10 ^ (n + 1) := Nat.pow_le_pow_right (by norm_num) (Nat.le_succ n)
  simpa [digitsVal, Nat.toDigits] using toDigitsCore_val (n + 1) n [] h10

theorem natRepr_injective : Function.Injective Nat.repr := by
  intro a b h
  have hd : Nat.toDigits 10 a = Nat.toDigits 10 b := by
    have hdata := congrArg String.data h
    simpa [Nat.repr, List.asString] using hdata
  have hv := congrArg digitsVal hd
  rwa [digitsVal_toDigits, digitsVal_toDigits] at hv

theorem mkDocId_injective : Function.Injective mkDocId := by
  intro a b h
  apply natRepr_injective
  apply String.ext
  have hdata := congrArg String.data h
  simp only [mkDocId, String.data_append] at hdata
  exact List.append_cancel_left hdata

theorem processChunks_eq (file : Json) (chunks : List Chunk) :
    ∀ (i : Nat) (acc : List LSDocument) (cc : Nat),
      processChunks file chunks i acc cc =
        (i + countRetained chunks, acc ++ retainedRecords file i chunks,
          cc + countRetained chunks) := by
  induction chunks with
  | nil => intro i acc cc; simp [processChunks, countRetained, retainedRecords]
  | cons ch rest ih =>
    intro i acc cc
    by_cases h : chunkRetained ch
    · simp only [processChunks, countRetained, retainedRecords, h, if_true, ih]
      simp [Nat.add_assoc]
    · simp only [processChunks, countRetained, retainedRecords, h, if_false, ih]
      simp

theorem idRange_length (c : Nat) : ∀ i : Nat, (idRange i c).length = c := by
  induction c with
  | zero => intro i; rfl
  | succ c ih => intro i; simp [idRange, ih]

theorem idRange_append (a : Nat) :
    ∀ (i b : Nat), idRange i a ++ idRange (i + a) b = idRange i (a + b) := by
  induction a with
  | zero => intro i b; simp [idRange]
  | succ a ih =>
    intro i b
    have h1 : i + (a + 1) = (i + 1) + a := by omega
    have h2 : a + 1 + b = (a + b) + 1 := by omega
    simp only [idRange, h1, h2, List.cons_append, ih]

theorem idRange_eq_map (c : Nat) :
    ∀ i : Nat, idRange i c = (List.range c).map (fun k => mkDocId (i + k + 1)) := by
  induction c with
  | zero => intro i; rfl
  | succ c ih =>
    intro i
    rw [List.range_succ_eq_map]
    simp only [idRange, List.map_cons, List.map_map, ih]
    refine congrArg₂ List.cons (by simp) ?_
    refine congrArg (fun g => List.map g (List.range c)) (funext fun k => ?_)
    simp only [Function.comp_apply]
    exact congrArg mkDocId (by omega)

theorem idRange_nodup (c i : Nat) : (idRange i c).Nodup := by
  rw [idRange_eq_map]
  refine List.Nodup.map ?_ (List.nodup_range c)
  intro a b h
  have := mkDocId_injective h
  omega

theorem retainedRecords_map_id (file : Json) (chunks : List Chunk) :
    ∀ i : Nat, (retainedRecords file i chunks).map LSDocument.document_id =
      idRange i (countRetained chunks) := by
  induction chunks with
  | nil => intro i; rfl
  | cons ch rest ih =>
    intro i
    by_cases h : chunkRetained ch
    · have hc : 1 + countRetained rest = countRetained rest + 1 := Nat.add_comm _ _
      simp [retainedRecords, countRetained, h, hc, idRange, mkRecord, ih]
    · simp [retainedRecords, countRetained, h, ih]

theorem retainedRecords_length (file : Json) (chunks : List Chunk) (i : Nat) :
    (retainedRecords file i chunks).length = countRetained chunks := by
  have := congrArg List.length (retainedRecords_map_id file chunks i)
  simpa [idRange_length] using this

theorem runRecords_map_id (oracle : Nat → DocOutcome) (documents : List Json) :
    ∀ (k i : Nat), (runRecords oracle documents k i).map LSDocument.document_id =
      idRange i (totalRetained oracle documents k) := by
  induction documents with
  | nil => intro k i; rfl
  | cons f rest ih =>
    intro k i
    simp only [runRecords, totalRetained, List.map_append,
      retainedRecords_map_id, ih]
    exact idRange_append _ i _

theorem runRecords_length (oracle : Nat → DocOutcome) (documents : List Json)
    (k i : Nat) :
    (runRecords oracle documents k i).length = totalRetained oracle documents k := by
  have := congrArg List.length (runRecords_map_id oracle documents k i)
  simpa [idRange_length] using this

theorem countRetained_eq_filter_length (chunks : List Chunk) :
    countRetained chunks = (chunks.filter chunkRetained).length := by
  induction chunks with
  | nil => rfl
  | cons ch rest ih =>
    by_cases h : chunkRetained ch
    · simp [countRetained, List.filter, h, ih, Nat.add_comm]
    · simp [countRetained, List.filter, h, ih]

theorem retainedRecords_map_content (file : Json) (chunks : List Chunk) :
    ∀ i : Nat, (retainedRecords file i chunks).map LSDocument.content =
      (chunks.filter chunkRetained).map Chunk.text := by
  induction chunks with
  | nil => intro i; rfl
  | cons ch rest ih =>
    intro i
    by_cases h : chunkRetained ch
    · simp [retainedRecords, List.filter, h, mkRecord, ih]
    · simp [retainedRecords, List.filter, h, ih]

theorem runRecords_map_content (oracle : Nat → DocOutcome)
    (documents : List Json) :
    ∀ (k i : Nat), (runRecords oracle documents k i).map LSDocument.content =
      runTexts oracle documents k := by
  induction documents with
  | nil => intro k i; rfl
  | cons f rest ih =>
    intro k i
    simp [runRecords, runTexts, retainedRecords_map_content, ih]

theorem specEntries_length (oracle : Nat → DocOutcome) (documents : List Json) :
    ∀ k : Nat, (processedSpec oracle documents k).length +
      (failedSpec oracle documents k).length = documents.length := by
  induction documents with
  | nil => intro k; rfl
  | cons f rest ih =>
    intro k
    cases hout : oracle k with
    | ok chunks => simp [processedSpec, failedSpec, hout, ← ih (k + 1)]; omega
    | err chunks msg => simp [processedSpec, failedSpec, hout, ← ih (k + 1)]; omega

theorem chunkRetained_iff (ch : Chunk) :
    chunkRetained ch = true ↔
      ∃ it ∈ ch.meta.doc_items,
        it.label = DocItemLabel.text ∨ it.label = DocItemLabel.paragraph := by
  simp [chunkRetained, List.any_eq_true, List.contains, List.elem_eq_mem]

theorem anyOfMap {α β : Type} (f : α → β) (p : β → Bool) :
    ∀ l : List α, (l.map f).any p = l.any (p ∘ f) := by
  intro l
  induction l with
  | nil => rfl
  | cons a t ih => simp [ih, Function.comp]

theorem chunkRetained_eq_labels (ch : Chunk) :
    chunkRetained ch =
      (ch.meta.doc_items.map DocItem.label).any
        (fun l => [DocItemLabel.text, DocItemLabel.paragraph].contains l) := by
  rw [anyOfMap]
  rfl

theorem processLoop_eq (oracle : Nat → DocOutcome) (documents : List Json) :
    ∀ (k : Nat) (st : LoopState),
      processLoop oracle documents k st =
        { i := st.i + totalRetained oracle documents k
          llama_documents :=
            st.llama_documents ++ runRecords oracle documents k st.i
          processed := st.processed ++ processedSpec oracle documents k
          failed := st.failed ++ failedSpec oracle documents k } := by
  induction documents with
  | nil => intro k st; simp [processLoop, totalRetained, runRecords,
      processedSpec, failedSpec]
  | cons f rest ih =>
    intro k st
    simp only [processLoop]
    cases hout : oracle k with
    | ok chunks =>
      simp only [processDocument, hout, outcomeChunks, processChunks_eq, ih,
        totalRetained, runRecords, processedSpec, failedSpec]
      simp [Nat.add_assoc]
    | err chunks msg =>
      simp only [processDocument, hout, outcomeChunks, processChunks_eq, ih,
        totalRetained, runRecords, processedSpec, failedSpec]
      simp [Nat.add_assoc]

/-- C1: For every document list resolved from the input of the Processor and
any outcomes of the external converter and chunker, the metrics written by
rag_docling_component report document_count equal to the list length, each
document contributes exactly one entry (to processed_documents exactly when
its conversion and chunking succeed, to failed_documents exactly when an
exception is raised for it), and the two lengths sum to the list length. -/
theorem C1_document_accounting (documents : List Json)
    (oracle : Nat → DocOutcome) (regResult insResult : Except String Unit) :
    (rag_docling_run documents oracle regResult insResult).metrics.document_count
        = documents.length ∧
    (rag_docling_run documents oracle regResult insResult).metrics.processed_documents
        = processedSpec oracle documents 0 ∧
    (rag_docling_run documents oracle regResult insResult).metrics.failed_documents
        = failedSpec oracle documents 0 ∧
    (rag_docling_run documents oracle regResult insResult).metrics.processed_documents.length
      + (rag_docling_run documents oracle regResult insResult).metrics.failed_documents.length
        = documents.length := by
  refine ⟨rfl, ?_, ?_, ?_⟩
  · simp only [rag_docling_run, processLoop_eq]
    simp
  · simp only [rag_docling_run, processLoop_eq]
    simp
  · simp only [rag_docling_run, processLoop_eq]
    simp [specEntries_length]

/-- C2: A chunk becomes a chunk record if and only if one of its doc items
carries a text or paragraph label: the filter is exactly that condition, it
depends only on the labels of the items of the chunk, the contents of the
inserted record list are exactly the texts of the retained chunks in order,
and total_chunks counts exactly the retained chunks, so dropped chunks
appear in neither. -/
theorem C2_chunk_filter (documents : List Json) (oracle : Nat → DocOutcome)
    (regResult insResult : Except String Unit) :
    (∀ ch : Chunk, chunkRetained ch = true ↔
      ∃ it ∈ ch.meta.doc_items,
        it.label = DocItemLabel.text ∨ it.label = DocItemLabel.paragraph) ∧
    (∀ ch₁ ch₂ : Chunk,
      ch₁.meta.doc_items.map DocItem.label = ch₂.meta.doc_items.map DocItem.label →
      chunkRetained ch₁ = chunkRetained ch₂) ∧
    (rag_docling_run documents oracle regResult insResult).insertArg.map
        LSDocument.content = runTexts oracle documents 0 ∧
    (rag_docling_run documents oracle regResult insResult).metrics.total_chunks
        = totalRetained oracle documents 0 ∧
    (∀ chunks : List Chunk,
      countRetained chunks = (chunks.filter chunkRetained).length) := by
  refine ⟨chunkRetained_iff, ?_, ?_, ?_, countRetained_eq_filter_length⟩
  · intro ch₁ ch₂ h
    rw [chunkRetained_eq_labels, chunkRetained_eq_labels, h]
  · simp only [rag_docling_run, processLoop_eq]
    simp [runRecords_map_content]
  · simp only [rag_docling_run, processLoop_eq]
    simp [runRecords_length]

/-- C3: Across one run the retained chunks get ids doc-1, doc-2, ... in
order of retention: the counter is shared across all documents (not reset
per document, and kept across failing documents), so the id list is the
decimal id of each position in order and its entries are pairwise
distinct. -/
theorem C3_chunk_ids (documents : List Json) (oracle : Nat → DocOutcome)
    (regResult insResult : Except String Unit) :
    (rag_docling_run documents oracle regResult insResult).insertArg.map
        LSDocument.document_id
      = (List.range
          (rag_docling_run documents oracle regResult insResult).metrics.total_chunks).map
          (fun k => mkDocId (k + 1)) ∧
    ((rag_docling_run documents oracle regResult insResult).insertArg.map
        LSDocument.document_id).Nodup := by
  constructor
  · simp only [rag_docling_run, processLoop_eq, List.nil_append]
    rw [runRecords_map_id, runRecords_length, idRange_eq_map]
    simp
  · simp only [rag_docling_run, processLoop_eq, List.nil_append]
    rw [runRecords_map_id]
    exact idRange_nodup _ _

/-- C4: When the vector-collection registration raises, the failure is
recorded as the vector_db_registration status, the insertion is still
attempted, and its argument is the same accumulated record list as in the
run where registration succeeds. -/
theorem C4_registration_independence (documents : List Json)
    (oracle : Nat → DocOutcome) (insResult : Except String Unit) (e : String) :
    (rag_docling_run documents oracle (Except.error e) insResult).metrics.vector_db_registration
        = CallStatus.failed e ∧
    (rag_docling_run documents oracle (Except.error e) insResult).insertArg
        = (rag_docling_run documents oracle (Except.ok ()) insResult).insertArg ∧
    Event.insertCall
        ((rag_docling_run documents oracle (Except.error e) insResult).insertArg)
      ∈ (rag_docling_run documents oracle (Except.error e) insResult).trace := by
  refine ⟨rfl, rfl, ?_⟩
  simp [rag_docling_run]

/-- C6: Whatever the outcomes of registration and insertion, the trace of a
run contains exactly one metrics write, that write carries the final
metrics, and the returned value equals total_chunks and the length of the
accumulated record list. -/
theorem C6_metrics_reporting (documents : List Json) (oracle : Nat → DocOutcome)
    (regResult insResult : Except String Unit) :
    (rag_docling_run documents oracle regResult insResult).trace.countP
        isWriteEvent = 1 ∧
    Event.writeMetrics (rag_docling_run documents oracle regResult insResult).metrics
      ∈ (rag_docling_run documents oracle regResult insResult).trace ∧
    (∀ m : Metrics,
      Event.writeMetrics m ∈ (rag_docling_run documents oracle regResult insResult).trace →
      m = (rag_docling_run documents oracle regResult insResult).metrics) ∧
    (rag_docling_run documents oracle regResult insResult).ret
        = (rag_docling_run documents oracle regResult insResult).metrics.total_chunks ∧
    (rag_docling_run documents oracle regResult insResult).ret
        = (rag_docling_run documents oracle regResult insResult).insertArg.length := by
  refine ⟨?_, ?_, ?_, rfl, rfl⟩
  · simp [rag_docling_run, List.countP_cons, isWriteEvent]
  · simp [rag_docling_run]
  · intro m h
    simp only [rag_docling_run, List.mem_cons, List.not_mem_nil, or_false] at h
    rcases h with h | h | h
    · exact absurd h (by simp)
    · exact absurd h (by simp)
    · simpa [rag_docling_run] using h

/-- C7: For an existing .json input file the document list comes from the
first recognized manifest shape: a bare JSON array is used as is; an object
with a document_paths key yields that value; otherwise an object with a
documents key yields that value; and on a parse failure or any value
matching none of the three shapes the input path itself becomes the single
document. -/
theorem C7_input_resolution (document_path : String)
    (hjson : strEndsWith document_path ".json" = true) :
    (resolveDocuments document_path true none
        = Json.jlist [Json.jstr document_path]) ∧
    (∀ xs : List Json,
      resolveDocuments document_path true (some (Json.jlist xs)) = Json.jlist xs) ∧
    (∀ (fields : List (String × Json)) (v : Json),
      jsonLookup fields "document_paths" = some v →
      resolveDocuments document_path true (some (Json.jobj fields)) = v) ∧
    (∀ (fields : List (String × Json)) (v : Json),
      jsonLookup fields "document_paths" = none →
      jsonLookup fields "documents" = some v →
      resolveDocuments document_path true (some (Json.jobj fields)) = v) ∧
    (∀ fields : List (String × Json),
      jsonLookup fields "document_paths" = none →
      jsonLookup fields "documents" = none →
      resolveDocuments document_path true (some (Json.jobj fields))
        = Json.jlist [Json.jstr document_path]) ∧
    (∀ s : String, resolveDocuments document_path true (some (Json.jstr s))
        = Json.jlist [Json.jstr document_path]) ∧
    (∀ n : Int, resolveDocuments document_path true (some (Json.jnum n))
        = Json.jlist [Json.jstr document_path]) ∧
    (∀ b : Bool, resolveDocuments document_path true (some (Json.jbool b))
        = Json.jlist [Json.jstr document_path]) ∧
    (resolveDocuments document_path true (some Json.jnull)
        = Json.jlist [Json.jstr document_path]) := by
  refine ⟨?_, ?_, ?_, ?_, ?_, ?_, ?_, ?_, ?_⟩
  · simp [resolveDocuments, hjson]
  · intro xs
    simp [resolveDocuments, hjson]
  · intro fields v hdp
    simp [resolveDocuments, hjson, hdp]
  · intro fields v hdp hd
    simp [resolveDocuments, hjson, hdp, hd]
  · intro fields hdp hd
    simp [resolveDocuments, hjson, hdp, hd]
  · intro s
    simp [resolveDocuments, hjson]
  · intro n
    simp [resolveDocuments, hjson]
  · intro b
    simp [resolveDocuments, hjson]
  · simp [resolveDocuments, hjson]

/-- C7 witness: instantiation at the path m.json with a documents-keyed
manifest and with a parse failure. -/
theorem C7_input_resolution_witness :
    (strEndsWith "m.json" ".json" = true) ∧
    resolveDocuments "m.json" true
        (some (Json.jobj [("documents", Json.jlist [Json.jstr "a.pdf"])]))
      = Json.jlist [Json.jstr "a.pdf"] ∧
    resolveDocuments "m.json" true none = Json.jlist [Json.jstr "m.json"] :=
  ⟨rfl,
    (C7_input_resolution "m.json" rfl).2.2.2.1
      [("documents", Json.jlist [Json.jstr "a.pdf"])]
      (Json.jlist [Json.jstr "a.pdf"]) rfl rfl,
    (C7_input_resolution "m.json" rfl).1⟩

/-- C10: When a manifest object carries both the document_paths key and the
documents key, the resolved value is the document_paths value, whatever the
documents key holds. -/
theorem C10_document_paths_priority (document_path : String)
    (fields : List (String × Json)) (v w : Json)
    (hjson : strEndsWith document_path ".json" = true)
    (hdp : jsonLookup fields "document_paths" = some v)
    (_hd : jsonLookup fields "documents" = some w) :
    resolveDocuments document_path true (some (Json.jobj fields)) = v := by
  simp [resolveDocuments, hjson, hdp]

/-- C10 witness: a manifest with both keys resolves to the document_paths
value and ignores the documents value. -/
theorem C10_document_paths_priority_witness :
    resolveDocuments "m.json" true
        (some (Json.jobj
          [("document_paths", Json.jlist [Json.jstr "p.pdf"]),
           ("documents", Json.jlist [Json.jstr "q.pdf"])]))
      = Json.jlist [Json.jstr "p.pdf"] :=
  C10_document_paths_priority "m.json"
    [("document_paths", Json.jlist [Json.jstr "p.pdf"]),
     ("documents", Json.jlist [Json.jstr "q.pdf"])]
    (Json.jlist [Json.jstr "p.pdf"]) (Json.jlist [Json.jstr "q.pdf"])
    rfl rfl rfl

/-- C9: When the input path does not name an existing file the resolved
document list is empty: the run completes with document_count zero, empty
processed and failed lists, total_chunks zero, a return value of zero, and
the metrics write still happens. -/
theorem C9_missing_input (document_path : String) (env : Env)
    (h : env.isFile = false) :
    ∃ out : RunOut, rag_docling_component document_path env = some out ∧
      out.metrics.document_count = 0 ∧
      out.metrics.processed_documents = [] ∧
      out.metrics.failed_documents = [] ∧
      out.metrics.total_chunks = 0 ∧
      out.ret = 0 ∧
      out.trace.countP isWriteEvent = 1 := by
  refine ⟨rag_docling_run [] env.oracle env.regResult env.insResult, ?_, ?_, ?_, ?_, ?_, ?_, ?_⟩
  · simp [rag_docling_component, resolveDocuments, h, pyIterList]
  · rfl
  · simp [rag_docling_run, processLoop]
  · simp [rag_docling_run, processLoop]
  · rfl
  · rfl
  · simp [rag_docling_run, List.countP_cons, isWriteEvent]

/-- C9 witness: instantiation at a path that is not a file. -/
theorem C9_missing_input_witness :
    ∃ out : RunOut,
      rag_docling_component "missing-input"
          { isFile := false, parsed := none,
            oracle := fun _ => DocOutcome.ok [],
            regResult := Except.ok (), insResult := Except.ok () } = some out ∧
      out.metrics.document_count = 0 ∧
      out.metrics.processed_documents = [] ∧
      out.metrics.failed_documents = [] ∧
      out.metrics.total_chunks = 0 ∧
      out.ret = 0 ∧
      out.trace.countP isWriteEvent = 1 :=
  C9_missing_input "missing-input"
    { isFile := false, parsed := none, oracle := fun _ => DocOutcome.ok [],
      regResult := Except.ok (), insResult := Except.ok () } rfl

theorem procObjs_count_sync (file_extensions : List String) (dl : String → Bool)
    (max_files : Int) (download_dir : String) (objs : List S3Object) :
    ∀ st : ProvState, st.file_count = st.downloaded.length →
      (procObjs file_extensions dl max_files download_dir objs st).1.file_count
        = (procObjs file_extensions dl max_files download_dir objs st).1.downloaded.length := by
  induction objs with
  | nil => intro st h; exact h
  | cons obj rest ih =>
    intro st h
    simp only [procObjs]
    by_cases hm : matchesExt file_extensions obj.key
    · by_cases hdl : dl obj.key
      · by_cases hcap :
          ((st.file_count + 1 : Nat) : Int) ≥ max_files
        · simp only [hm, hdl, hcap, if_true]
          simp [h]
        · simp only [hm, hdl, hcap, if_true, if_false]
          exact ih _ (by simp [h])
      · simp only [hm, hdl, if_true, if_false]
        exact ih _ (by simp [h])
    · simp only [hm, if_false]
      exact ih _ (by simp [h])

theorem procObjs_cap (file_extensions : List String) (dl : String → Bool)
    (max_files : Int) (download_dir : String) (objs : List S3Object) :
    ∀ st : ProvState, (st.file_count : Int) < max_files →
      ((procObjs file_extensions dl max_files download_dir objs st).1.file_count : Int)
        ≤ max_files := by
  induction objs with
  | nil => intro st h; exact le_of_lt h
  | cons obj rest ih =>
    intro st h
    simp only [procObjs]
    by_cases hm : matchesExt file_extensions obj.key
    · by_cases hdl : dl obj.key
      · by_cases hcap : ((st.file_count + 1 : Nat) : Int) ≥ max_files
        · simp only [hm, hdl, hcap, if_true]
          push_cast
          omega
        · simp only [hm, hdl, hcap, if_true, if_false]
          refine ih _ ?_
          push_cast at hcap ⊢
          omega
      · simp only [hm, hdl, if_true, if_false]
        exact ih _ h
    · simp only [hm, if_false]
      exact ih _ h

theorem procPages_cap (file_extensions : List String) (dl : String → Bool)
    (max_files : Int) (download_dir : String)
    (pages : List (Option (List S3Object))) :
    ∀ st : ProvState, (st.file_count : Int) < max_files →
      ((procPages file_extensions dl max_files download_dir pages st).file_count : Int)
        ≤ max_files := by
  induction pages with
  | nil => intro st h; exact le_of_lt h
  | cons page rest ih =>
    intro st h
    cases page with
    | none => exact ih st h
    | some objs =>
      simp only [procPages]
      by_cases hcap :
        (((procObjs file_extensions dl max_files download_dir objs st).1.file_count : Int)
          ≥ max_files)
      · simp only [hcap, if_true]
        exact procObjs_cap file_extensions dl max_files download_dir objs st h
      · simp only [hcap, if_false]
        exact ih _ (lt_of_not_ge hcap)

theorem procPages_count_sync (file_extensions : List String) (dl : String → Bool)
    (max_files : Int) (download_dir : String)
    (pages : List (Option (List S3Object))) :
    ∀ st : ProvState, st.file_count = st.downloaded.length →
      (procPages file_extensions dl max_files download_dir pages st).file_count
        = (procPages file_extensions dl max_files download_dir pages st).downloaded.length := by
  induction pages with
  | nil => intro st h; exact h
  | cons page rest ih =>
    intro st h
    cases page with
    | none => exact ih st h
    | some objs =>
      simp only [procPages]
      by_cases hcap :
        (((procObjs file_extensions dl max_files download_dir objs st).1.file_count : Int)
          ≥ max_files)
      · simp only [hcap, if_true]
        exact procObjs_count_sync file_extensions dl max_files download_dir objs st h
      · simp only [hcap, if_false]
        exact ih _ (procObjs_count_sync file_extensions dl max_files download_dir objs st h)

/-- C5 (amended): For every listing and every configured maximum of at least
one, the provider downloads at most max_files objects, and enumeration
stops as soon as the count of successful downloads reaches the maximum,
even mid-page: in the five-object scenario with two .pdf matches and
max_files one, exactly the first matching object is downloaded, enumeration
ends inside the first page, and the second matching object is never
visited.  (With a configured maximum of zero or less the first matching
object is still downloaded before the cap check applies.) -/
theorem C5_download_cap (bucket_name minio_endpoint : String)
    (file_extensions : List String) (max_files : Int) (download_dir : String)
    (pages : List (Option (List S3Object))) (dl : String → Bool)
    (h : 1 ≤ max_files) :
    (((s3_document_provider bucket_name minio_endpoint file_extensions max_files
        download_dir pages dl).1.downloaded.length : Int) ≤ max_files) ∧
    ((s3_document_provider "b" "ep" [".pdf"] 1 "/tmp/documents"
        [some [{ key := "r1.txt", size := 1, last_modified := "t1" },
               { key := "a.pdf", size := 2, last_modified := "t2" },
               { key := "r2.txt", size := 3, last_modified := "t3" }],
         some [{ key := "e.pdf", size := 4, last_modified := "t4" },
               { key := "r3.txt", size := 5, last_modified := "t5" }]]
        (fun _ => true)).1.downloaded.map DFile.key = ["a.pdf"]) ∧
    ((s3_document_provider "b" "ep" [".pdf"] 1 "/tmp/documents"
        [some [{ key := "r1.txt", size := 1, last_modified := "t1" },
               { key := "a.pdf", size := 2, last_modified := "t2" },
               { key := "r2.txt", size := 3, last_modified := "t3" }],
         some [{ key := "e.pdf", size := 4, last_modified := "t4" },
               { key := "r3.txt", size := 5, last_modified := "t5" }]]
        (fun _ => true)).1.visited = ["r1.txt", "a.pdf"]) ∧
    ("e.pdf" ∉ (s3_document_provider "b" "ep" [".pdf"] 1 "/tmp/documents"
        [some [{ key := "r1.txt", size := 1, last_modified := "t1" },
               { key := "a.pdf", size := 2, last_modified := "t2" },
               { key := "r2.txt", size := 3, last_modified := "t3" }],
         some [{ key := "e.pdf", size := 4, last_modified := "t4" },
               { key := "r3.txt", size := 5, last_modified := "t5" }]]
        (fun _ => true)).1.visited) := by
  refine ⟨?_, by decide, by decide, by decide⟩
  have hsync := procPages_count_sync file_extensions dl max_files download_dir pages
    { visited := [], downloaded := [], file_count := 0 } rfl
  have hcap := procPages_cap file_extensions dl max_files download_dir pages
    { visited := [], downloaded := [], file_count := 0 } (by push_cast; omega)
  simp only [s3_document_provider]
  rw [← hsync]
  exact hcap

/-- C5 witness: the cap holds at the scenario listing with a maximum of
three. -/
theorem C5_download_cap_witness :
    (1 : Int) ≤ 3 ∧
    ((s3_document_provider "b" "ep" [".pdf"] 3 "/tmp/documents"
        [some [{ key := "a.pdf", size := 1, last_modified := "t1" },
               { key := "e.pdf", size := 2, last_modified := "t2" }]]
        (fun _ => true)).1.downloaded.length : Int) ≤ 3 :=
  ⟨by decide,
    (C5_download_cap "b" "ep" [".pdf"] 3 "/tmp/documents"
      [some [{ key := "a.pdf", size := 1, last_modified := "t1" },
             { key := "e.pdf", size := 2, last_modified := "t2" }]]
      (fun _ => true) (by decide)).1⟩

/-- C5 counterexample: with a configured maximum of zero and one matching
object in the listing, one file is downloaded, so the download count
exceeds the configured maximum. -/
theorem C5_counterexample :
    ((s3_document_provider "b" "ep" [".pdf"] 0 "/tmp/documents"
        [some [{ key := "a.pdf", size := 1, last_modified := "t" }]]
        (fun _ => true)).1.downloaded.length = 1) ∧
    ¬ (((s3_document_provider "b" "ep" [".pdf"] 0 "/tmp/documents"
        [some [{ key := "a.pdf", size := 1, last_modified := "t" }]]
        (fun _ => true)).1.downloaded.length : Int) ≤ 0) := by
  refine ⟨by decide, by decide⟩

/-- C8 counterexample: at a directory with one matching file, the metadata
object written by the local-files variant carries no details key, while a
bucket manifest metadata carries details but no source key, refuting that
the local-files manifest has the bucket shape of source, file_count and
per-file details. -/
theorem C8_counterexample :
    metaLookup (localFilesManifest "d" [".pdf"] (fun _ => ["d/a.pdf"])) "details"
      = none ∧
    metaLookup (localFilesManifest "d" [".pdf"] (fun _ => ["d/a.pdf"])) "source"
      = some (Json.jstr "local_files") ∧
    metaLookup
        (s3Manifest "b" "ep"
          [{ file_path := "/tmp/documents/a.pdf", key := "a.pdf", size := 1,
             last_modified := "t" }]) "details"
      = some (Json.jlist
          [dfileJson
            { file_path := "/tmp/documents/a.pdf", key := "a.pdf", size := 1,
              last_modified := "t" }]) ∧
    metaLookup
        (s3Manifest "b" "ep"
          [{ file_path := "/tmp/documents/a.pdf", key := "a.pdf", size := 1,
             last_modified := "t" }]) "source"
      = none := by
  refine ⟨rfl, rfl, rfl, rfl⟩

/-- C8 (amended): the local-files variant writes a manifest whose
document_paths list the globbed files of the given directory for the
requested extensions and whose metadata carries source equal to
local_files, file_count and the directory, but no per-file details; the
bucket variant metadata instead carries bucket, endpoint, file_count and
per-file details and no source key, so the two manifests share
document_paths and metadata.file_count but not the full metadata shape. -/
theorem C8_local_manifest (local_files_dir : String)
    (file_extensions : List String) (glob : String → List String)
    (bucket_name minio_endpoint : String) (downloaded : List DFile) :
    jsonLookup (objFields (localFilesManifest local_files_dir file_extensions glob))
        "document_paths"
      = some (Json.jlist ((localFilesList file_extensions glob).map Json.jstr)) ∧
    metaLookup (localFilesManifest local_files_dir file_extensions glob) "source"
      = some (Json.jstr "local_files") ∧
    metaLookup (localFilesManifest local_files_dir file_extensions glob) "file_count"
      = some (Json.jnum ((localFilesList file_extensions glob).length : Int)) ∧
    metaLookup (localFilesManifest local_files_dir file_extensions glob) "directory"
      = some (Json.jstr local_files_dir) ∧
    metaLookup (localFilesManifest local_files_dir file_extensions glob) "details"
      = none ∧
    jsonLookup (objFields (s3Manifest bucket_name minio_endpoint downloaded))
        "document_paths"
      = some (Json.jlist (downloaded.map fun d => Json.jstr d.file_path)) ∧
    metaLookup (s3Manifest bucket_name minio_endpoint downloaded) "file_count"
      = some (Json.jnum (downloaded.length : Int)) ∧
    metaLookup (s3Manifest bucket_name minio_endpoint downloaded) "details"
      = some (Json.jlist (downloaded.map dfileJson)) ∧
    metaLookup (s3Manifest bucket_name minio_endpoint downloaded) "source"
      = none := by
  refine ⟨rfl, rfl, rfl, rfl, rfl, rfl, rfl, rfl, rfl⟩
